import Mathlib

/-!
Verification of the loadr template-rendering library.

Strings and byte slices are modelled as lists of characters (the inputs of
interest are ASCII, where Go byte indices and character indices coincide).
The external template engine (html/template, text/template) is treated as an
opaque capability: its parse and execute outcomes are parameters of the
embedded functions, mirroring how the source consumes it.
-/

namespace Loadr

/-- Strings are modelled as lists of characters. -/
abbrev Str := List Char

/-- ASCII lowering of one character, the fragment of strings.ToLower relevant
to the ASCII inputs considered here. -/
def asciiToLowerChar (c : Char) : Char :=
  if c.isUpper then Char.ofNat (c.toNat + 32) else c

/-- strings.ToLower on the ASCII fragment. -/
def strToLower (s : Str) : Str := s.map asciiToLowerChar

/-- All indices i of s at which sub starts, in increasing order.
Indices range over 0..s.length as in Go strings.LastIndex. -/
def occList (s sub : Str) : List Nat :=
  (List.range (s.length + 1)).filter (fun i => sub.isPrefixOf (s.drop i))

/-- strings.LastIndex: the greatest index at which sub occurs in s,
none standing for the Go return value -1. -/
def lastIndex (s sub : Str) : Option Nat := (occList s sub).getLast?

/-- The closing body marker searched for by SubTemplate.render. -/
def bodyMarker : Str := "</body>".toList

/-- The index computed by SubTemplate.render:
strings.LastIndex(strings.ToLower(html), closing body marker). -/
def lastBodyIndex (html : Str) : Option Nat :=
  lastIndex (strToLower html) bodyMarker

/-- The reload-script injection step of SubTemplate.render
(src/template.go lines 239-243, identically src/core/templ.go lines 253-257):
lower the rendered html, find the last occurrence of the marker, and if one
exists splice the script fragment js immediately before it.  When no marker
exists the html is left unchanged. -/
def jsInject (js html : Str) : Str :=
  match lastBodyIndex html with
  | some idx => html.take idx ++ js ++ html.drop idx
  | none => html

lemma mem_occList {s sub : Str} {i : Nat} :
    i ∈ occList s sub ↔ i ≤ s.length ∧ sub.isPrefixOf (s.drop i) = true := by
  simp [occList, List.mem_filter, List.mem_range, Nat.lt_succ_iff]

lemma occList_pairwise (s sub : Str) : (occList s sub).Pairwise (· < ·) :=
  (List.pairwise_lt_range _).filter _

lemma getLast?_max :
    ∀ (l : List Nat), l.Pairwise (· < ·) →
      ∀ a, l.getLast? = some a → ∀ b, b ∈ l → b ≤ a := by
  intro l
  induction l with
  | nil => intro _ a ha; simp at ha
  | cons x xs ih =>
    intro hp a ha b hb
    cases xs with
    | nil =>
      simp [List.getLast?] at ha
      rcases List.mem_singleton.mp hb with rfl
      omega
    | cons y ys =>
      have hxs : (y :: ys).getLast? = some a := by
        rwa [List.getLast?_cons_cons] at ha
      have hamem : a ∈ y :: ys := by
        obtain ⟨hne, ha2⟩ := List.mem_getLast?_eq_getLast (Option.mem_def.mpr hxs)
        rw [ha2]
        exact List.getLast_mem hne
      rcases List.mem_cons.mp hb with rfl | hb2
      · have := (List.pairwise_cons.mp hp).1 a hamem
        omega
      · exact ih (List.pairwise_cons.mp hp).2 a hxs b hb2

lemma isPrefixOf_drop_le {s sub : Str} {j : Nat}
    (h : sub.isPrefixOf (s.drop j) = true) (hne : sub ≠ []) : j ≤ s.length := by
  by_contra hgt
  have hnil : s.drop j = [] := List.drop_eq_nil_of_le (by omega)
  rw [hnil] at h
  have : sub <+: ([] : Str) := List.isPrefixOf_iff_prefix.mp h
  exact hne (List.prefix_nil.mp this)

lemma lastIndex_spec {s sub : Str} {i : Nat} (h : lastIndex s sub = some i) :
    sub.isPrefixOf (s.drop i) = true ∧
      ∀ j, sub ≠ [] → sub.isPrefixOf (s.drop j) = true → j ≤ i := by
  have hmem : i ∈ occList s sub := by
    obtain ⟨hne, hi⟩ := List.mem_getLast?_eq_getLast (Option.mem_def.mpr h)
    rw [hi]
    exact List.getLast_mem hne
  refine ⟨(mem_occList.mp hmem).2, ?_⟩
  intro j hne hj
  have hjmem : j ∈ occList s sub :=
    mem_occList.mpr ⟨isPrefixOf_drop_le hj hne, hj⟩
  exact getLast?_max _ (occList_pairwise s sub) i h j hjmem

lemma lastIndex_none {s sub : Str} (h : lastIndex s sub = none) :
    ∀ j, sub ≠ [] → sub.isPrefixOf (s.drop j) = false := by
  intro j hne
  by_contra hj
  have hj2 : sub.isPrefixOf (s.drop j) = true := by
    cases hb : sub.isPrefixOf (s.drop j)
    · exact absurd hb hj
    · rfl
  have hjmem : j ∈ occList s sub :=
    mem_occList.mpr ⟨isPrefixOf_drop_le hj2 hne, hj2⟩
  have : occList s sub = [] := List.getLast?_eq_none_iff.mp h
  rw [this] at hjmem
  simp at hjmem

/-- Concrete reload-script fragment used in examples. -/
def exJs : Str := "[JS]".toList

/-- Concrete rendered document with a mixed-case closing body marker followed
by trailing whitespace. -/
def exHtml : Str := "<p>A</p></BoDy>  ".toList

/-- Concrete rendered document containing no closing body marker. -/
def cNoBody : Str := "<p>hello".toList

/-- C2 counterexample: for a rendered output with no closing body marker, the
injection step leaves the output unchanged; the reload-script fragment is not
appended at the end of the document, contrary to the claim. -/
theorem C2_counterexample :
    lastBodyIndex cNoBody = none ∧
    jsInject exJs cNoBody = cNoBody ∧
    jsInject exJs cNoBody ≠ cNoBody ++ exJs := by decide

/-- C2 (amended): on a successful live-reload render, whenever the computed
last marker index is some i, position i carries a case-insensitive occurrence
of the closing body marker, every occurrence lies at or before i, and the
bytes written are exactly the un-injected render with the fragment spliced at
i (all other bytes unchanged).  When the marker does not occur, the output is
written unchanged: no fragment is appended. -/
theorem C2_injection (js html : Str) :
    (∀ i, lastBodyIndex html = some i →
        bodyMarker.isPrefixOf ((strToLower html).drop i) = true ∧
        (∀ j, bodyMarker.isPrefixOf ((strToLower html).drop j) = true → j ≤ i) ∧
        jsInject js html = html.take i ++ js ++ html.drop i ∧
        html.take i ++ html.drop i = html) ∧
    (lastBodyIndex html = none →
        (∀ j, bodyMarker.isPrefixOf ((strToLower html).drop j) = false) ∧
        jsInject js html = html) := by
  constructor
  · intro i hi
    have hspec : bodyMarker.isPrefixOf ((strToLower html).drop i) = true ∧
        ∀ j, bodyMarker ≠ [] →
          bodyMarker.isPrefixOf ((strToLower html).drop j) = true → j ≤ i :=
      lastIndex_spec hi
    refine ⟨hspec.1, ?_, ?_, List.take_append_drop i html⟩
    · intro j hj
      exact hspec.2 j (by decide) hj
    · simp only [jsInject, hi]
  · intro h
    refine ⟨fun j => lastIndex_none h j (by decide), ?_⟩
    simp only [jsInject, h]

/-- C2 witness: on the concrete document with a mixed-case marker and trailing
whitespace, the fragment is spliced at index 8, immediately before that
marker. -/
theorem C2_injection_witness :
    lastBodyIndex exHtml = some 8 ∧
    jsInject exJs exHtml = exHtml.take 8 ++ exJs ++ exHtml.drop 8 := by
  have h : lastBodyIndex exHtml = some 8 := by decide
  exact ⟨h, ((C2_injection exJs exHtml).1 8 h).2.2.1⟩

/-- Errors surfaced to render by the template engine or by the sink writer.
The three protocol-violation sentinels mirror http.ErrBodyNotAllowed,
http.ErrHijacked and http.ErrContentLength; transport covers benign write
failures such as a disconnected client; execFail is an execution failure
reported by the engine itself. -/
inductive GoErr where
  | errBodyNotAllowed
  | errHijacked
  | errContentLength
  | transport (code : Nat)
  | execFail (m : Str)
deriving DecidableEq, Repr

/-- The switch in render matching the three protocol-violation sentinels. -/
def isProtocolErr : GoErr → Bool
  | .errBodyNotAllowed => true
  | .errHijacked => true
  | .errContentLength => true
  | _ => false

/-- Shared template-context fields of a unit (templateContextCore):
base patterns, extra patterns, whether a filesystem config is present, and
the optional onLoad hook together with the error it would return
(none: no hook installed; some none: hook installed and succeeding;
some (some m): hook installed and failing with message m). -/
structure TemplCtxCore where
  baseTemplates : List Str
  withTemplates : List Str
  hasConfig : Bool
  onLoad : Option (Option Str)
deriving DecidableEq, Repr

/-- Structural model of the Go error values produced by Load and render.
wrapped models the TemplateError wrapper carrying the context and the lookup
pattern in use; withHint models the fmt.Errorf annotation added by
Template.Load hinting that a .B or .D field may be missing. -/
inductive TError where
  | noConfig
  | noBaseOrPattern
  | noBasePattern
  | parse (m : Str)
  | exec (m : Str)
  | onLoadFail (m : Str)
  | wrapped (ctx : TemplCtxCore) (usePattern : Str) (e : TError)
  | withHint (e : TError)
deriving DecidableEq, Repr

/-- errors.Is(err, ErrTemplateExecute): whether the unwrap chain of the error
reaches the template-execute sentinel. -/
def isExecErr : TError → Bool
  | .exec _ => true
  | .wrapped _ _ e => isExecErr e
  | .withHint e => isExecErr e
  | _ => false

/-- Whether the hint annotation occurs anywhere in the error. -/
def hasHint : TError → Bool
  | .withHint _ => true
  | .wrapped _ _ e => hasHint e
  | _ => false

/-- The external template engine as consumed by load: parse yields an error
message for a pattern list when parsing fails, and exec yields an error
message when the trial execution of the given lookup pattern against the
sample data fails. -/
structure Engine where
  parse : List Str → Option Str
  exec : Str → Option Str

/-- SubTemplate.load (src/template.go lines 164-200): run the onLoad hook,
require a config, concatenate base and extra patterns, require the result
non-empty, parse, then trial-execute the lookup pattern against the sample
data.  Returns the error produced, none on success. -/
def load (eng : Engine) (ctx : TemplCtxCore) (usePattern : Str) : Option TError :=
  match ctx.onLoad with
  | some (some m) => some (.onLoadFail m)
  | _ =>
    if ctx.hasConfig = false then some .noConfig
    else
      let patterns := ctx.baseTemplates ++ ctx.withTemplates
      if patterns.isEmpty then some (.wrapped ctx [] .noBaseOrPattern)
      else
        match eng.parse patterns with
        | some m => some (.wrapped ctx usePattern (.parse m))
        | none =>
          match eng.exec usePattern with
          | some m => some (.wrapped ctx usePattern (.exec m))
          | none => none

/-- Go path/filepath.Base on a slash-separated path: empty path gives a dot,
trailing separators are stripped, the final element is returned, and a path
of only separators gives a single separator. -/
def filepathBase (p : Str) : Str :=
  if p = [] then ['.']
  else
    let q : Str := (p.reverse.dropWhile (fun c => c = '/')).reverse
    let r : Str := (q.reverse.takeWhile (fun c => c ≠ '/')).reverse
    if r = [] then ['/'] else r

/-- Template.Load for base-wrapped units (src/template.go lines 73-85):
fail when no base pattern exists, otherwise set the lookup pattern to the
file-name component of the first base pattern, run load, and annotate an
execute error with the .B/.D hint.  Returns the error (none on success)
paired with the lookup pattern the unit uses afterwards. -/
def templateLoad (eng : Engine) (ctx : TemplCtxCore) (usePattern0 : Str) :
    Option TError × Str :=
  match ctx.baseTemplates with
  | [] => (some (.wrapped ctx usePattern0 .noBasePattern), usePattern0)
  | b :: _ =>
    let up := filepathBase b
    match load eng ctx up with
    | some e => if isExecErr e then (some (.withHint e), up) else (some e, up)
    | none => (none, up)

/-- Observable effects of one render call: whether it panicked, the byte
sequences passed to the sink writer in the live-reload paths, and the errors
forwarded to the live-reload notification hook. -/
structure RenderEffects where
  panicked : Bool
  written : List Str
  notified : List TError
deriving DecidableEq, Repr

namespace TemplateGo

/-- SubTemplate.render of src/template.go (lines 203-251).  Parameters stand
for the outcomes of the external calls the source makes: loadRes is the
result of the synchronous t.load(d) on the live path; bufExec is the result
of executing the template into the in-memory buffer (error message, or the
rendered html); prodExec is the error returned by executing the template
directly into the sink in production mode (an engine failure or a write
error surfaced by the sink); sink gives the error the sink returns when a
given byte sequence is written to it.  Production-mode output bytes are
produced inside the engine call and are not tracked in written. -/
def render (liveReload : Bool) (js : Str) (loadRes : Option TError)
    (bufExec : Except Str Str) (prodExec : Option GoErr)
    (sink : Str → Option GoErr) : RenderEffects :=
  if liveReload = false then
    match prodExec with
    | some e => if isProtocolErr e then ⟨true, [], []⟩ else ⟨false, [], []⟩
    | none => ⟨false, [], []⟩
  else
    match loadRes with
    | some e =>
      match sink js with
      | some _ => ⟨true, [js], [e]⟩
      | none => ⟨false, [js], [e]⟩
    | none =>
      match bufExec with
      | .error _ => ⟨true, [], []⟩
      | .ok html =>
        let out := jsInject js html
        match sink out with
        | some e => if isProtocolErr e then ⟨true, [out], []⟩ else ⟨false, [out], []⟩
        | none => ⟨false, [out], []⟩

end TemplateGo

namespace CoreTempl

/-- failWriter.Write of src/core/templ.go (lines 195-213) as seen by a single
write: a protocol-violation error from the wrapped sink is recorded and
returned, any other sink error is discarded and the write reports success. -/
def fwWrite (sink : Str → Option GoErr) (p : Str) : Option GoErr :=
  match sink p with
  | some e => if isProtocolErr e then some e else none
  | none => none

/-- SubTemplate.render of src/core/templ.go (lines 216-263).  All sink writes
go through the failWriter.  In production mode the engine writes prodOut
through the failWriter and ExecuteTemplate returns either the write error the
failWriter surfaced (a protocol violation) or the engine failure
prodEngineErr; render panics on any non-nil result. -/
def render (liveReload : Bool) (js : Str) (loadRes : Option TError)
    (bufExec : Except Str Str) (prodEngineErr : Option Str)
    (sink : Str → Option GoErr) (prodOut : Str) : RenderEffects :=
  if liveReload = false then
    let err : Option GoErr :=
      match fwWrite sink prodOut with
      | some e => some e
      | none => prodEngineErr.map (fun m => GoErr.execFail m)
    match err with
    | some _ => ⟨true, [prodOut], []⟩
    | none => ⟨false, [prodOut], []⟩
  else
    match loadRes with
    | some e =>
      match fwWrite sink js with
      | some _ => ⟨true, [js], [e]⟩
      | none => ⟨false, [js], [e]⟩
    | none =>
      match bufExec with
      | .error _ => ⟨true, [], []⟩
      | .ok html =>
        let out := jsInject js html
        match fwWrite sink out with
        | some _ => ⟨true, [out], []⟩
        | none => ⟨false, [out], []⟩

end CoreTempl

/-- A sink that accepts every write. -/
def sinkOk : Str → Option GoErr := fun _ => none

/-- A sink that fails every write with a transport error, as a disconnected
client does. -/
def sinkTransport : Str → Option GoErr := fun _ => some (GoErr.transport 7)

/-- A sink that fails every write with a protocol-violation error. -/
def sinkProto : Str → Option GoErr := fun _ => some GoErr.errHijacked

/-- C1 counterexample: in src/template.go production-mode render, an
execution failure reported by the template engine that is not one of the
three protocol sentinels is silently swallowed: render returns normally
instead of panicking. -/
theorem C1_counterexample :
    isProtocolErr (GoErr.execFail "boom".toList) = false ∧
    (TemplateGo.render false exJs none (Except.ok [])
        (some (GoErr.execFail "boom".toList)) sinkOk).panicked = false := by
  decide

/-- C1 (amended): in production mode, the src/template.go render escalates an
ExecuteTemplate error as a panic exactly when it is one of the three
protocol-violation sentinels, so transport write errors and engine execution
failures alike are swallowed there; the src/core/templ.go render panics on an
engine execution failure, swallows a transport sink error, and panics on a
protocol-violation sink error. -/
theorem C1_render_errors :
    (∀ js be e sink,
        (TemplateGo.render false js none be (some e) sink).panicked =
          isProtocolErr e) ∧
    (∀ js be m sink out, sink out = none →
        (CoreTempl.render false js none be (some m) sink out).panicked = true) ∧
    (∀ js be e sink out, sink out = some e → isProtocolErr e = false →
        (CoreTempl.render false js none be none sink out).panicked = false) ∧
    (∀ js be pe e sink out, sink out = some e → isProtocolErr e = true →
        (CoreTempl.render false js none be pe sink out).panicked = true) := by
  refine ⟨?_, ?_, ?_, ?_⟩
  · intro js be e sink
    cases h : isProtocolErr e <;> simp [TemplateGo.render, h]
  · intro js be m sink out h
    simp [CoreTempl.render, CoreTempl.fwWrite, h]
  · intro js be e sink out h hp
    simp [CoreTempl.render, CoreTempl.fwWrite, h, hp]
  · intro js be pe e sink out h hp
    simp [CoreTempl.render, CoreTempl.fwWrite, h, hp]

/-- C1 witness: the four branches of the amended statement evaluated at
concrete sinks and errors. -/
theorem C1_render_errors_witness :
    (TemplateGo.render false exJs none (Except.ok [])
        (some (GoErr.transport 7)) sinkOk).panicked =
      isProtocolErr (GoErr.transport 7) ∧
    (CoreTempl.render false exJs none (Except.ok [])
        (some "boom".toList) sinkOk []).panicked = true ∧
    (CoreTempl.render false exJs none (Except.ok [])
        none sinkTransport []).panicked = false ∧
    (CoreTempl.render false exJs none (Except.ok [])
        (some "boom".toList) sinkProto []).panicked = true :=
  ⟨C1_render_errors.1 _ _ _ _,
   C1_render_errors.2.1 _ _ _ _ _ rfl,
   C1_render_errors.2.2.1 _ _ _ _ _ rfl rfl,
   C1_render_errors.2.2.2 _ _ _ _ _ _ rfl rfl⟩

/-- An engine whose parse and trial execution both succeed. -/
def engOk : Engine := ⟨fun _ => none, fun _ => none⟩

/-- An engine whose parse fails. -/
def engParseFail : Engine := ⟨fun _ => some "syntax".toList, fun _ => none⟩

/-- An engine that parses but whose trial execution fails. -/
def engExecFail : Engine := ⟨fun _ => none, fun _ => some "bad".toList⟩

/-- Context of a sub-template unit with one extra pattern. -/
def ctxSub : TemplCtxCore := ⟨[], ["sub.html".toList], true, none⟩

/-- Context with a base pattern but no filesystem configured. -/
def ctxNoConfig : TemplCtxCore := ⟨["base.html".toList], [], false, none⟩

/-- Context with no patterns at all. -/
def ctxNoPatterns : TemplCtxCore := ⟨[], [], true, none⟩

/-- Context with one nested base pattern and a filesystem. -/
def ctxBase : TemplCtxCore := ⟨["dir/base.html".toList], [], true, none⟩

/-- C3 counterexample: a sub-template unit whose trial execution fails gets
the template-execute error wrapped with its context, with no .B/.D hint
annotation anywhere in the error, contrary to the claim that the hint is
attached for every Template Unit. -/
theorem C3_counterexample :
    load engExecFail ctxSub "sub.html".toList =
      some (TError.wrapped ctxSub "sub.html".toList (.exec "bad".toList)) ∧
    isExecErr (TError.wrapped ctxSub "sub.html".toList (.exec "bad".toList)) = true ∧
    hasHint (TError.wrapped ctxSub "sub.html".toList (.exec "bad".toList)) = false := by
  decide

/-- C3 (amended): Load fails with exactly the error of each condition, taken
in the order the source checks them: ConfigMissing when no filesystem is
configured, NoPatternsProvided when the concatenated base+extra pattern list
is empty, NoBasePatternProvided when a base-wrapped unit has zero base
patterns, TemplateParseError when parsing fails, and TemplateExecuteError
when the trial execution fails — annotated with the .B/.D hint only when the
failing unit is base-wrapped; a sub-template unit returns the execute error
without the hint. -/
theorem C3_load_errors :
    (∀ eng ctx up, ctx.onLoad = none → ctx.hasConfig = false →
        load eng ctx up = some .noConfig) ∧
    (∀ eng ctx up, ctx.onLoad = none → ctx.hasConfig = true →
        ctx.baseTemplates ++ ctx.withTemplates = [] →
        load eng ctx up = some (.wrapped ctx [] .noBaseOrPattern)) ∧
    (∀ eng ctx up0, ctx.baseTemplates = [] →
        templateLoad eng ctx up0 = (some (.wrapped ctx up0 .noBasePattern), up0)) ∧
    (∀ eng ctx up m, ctx.onLoad = none → ctx.hasConfig = true →
        (ctx.baseTemplates ++ ctx.withTemplates).isEmpty = false →
        eng.parse (ctx.baseTemplates ++ ctx.withTemplates) = some m →
        load eng ctx up = some (.wrapped ctx up (.parse m))) ∧
    (∀ eng ctx up m, ctx.onLoad = none → ctx.hasConfig = true →
        (ctx.baseTemplates ++ ctx.withTemplates).isEmpty = false →
        eng.parse (ctx.baseTemplates ++ ctx.withTemplates) = none →
        eng.exec up = some m →
        load eng ctx up = some (.wrapped ctx up (.exec m)) ∧
        hasHint (TError.wrapped ctx up (.exec m)) = false) ∧
    (∀ eng ctx up0 b bs m, ctx.baseTemplates = b :: bs →
        ctx.onLoad = none → ctx.hasConfig = true →
        eng.parse (ctx.baseTemplates ++ ctx.withTemplates) = none →
        eng.exec (filepathBase b) = some m →
        templateLoad eng ctx up0 =
          (some (.withHint (.wrapped ctx (filepathBase b) (.exec m))),
            filepathBase b)) := by
  refine ⟨?_, ?_, ?_, ?_, ?_, ?_⟩
  · intro eng ctx up h1 h2
    simp [load, h1, h2]
  · intro eng ctx up h1 h2 h3
    simp [load, h1, h2, h3]
  · intro eng ctx up0 hb
    simp [templateLoad, hb]
  · intro eng ctx up m h1 h2 h3 h4
    simp [load, h1, h2, h3, h4]
  · intro eng ctx up m h1 h2 h3 h4 h5
    exact ⟨by simp [load, h1, h2, h3, h4, h5], by simp [hasHint]⟩
  · intro eng ctx up0 b bs m hb h1 h2 h3 h4
    rw [hb] at h3
    have hload : load eng ctx (filepathBase b) =
        some (.wrapped ctx (filepathBase b) (.exec m)) := by
      simp only [load, h1, h2, hb]
      simp [List.cons_append] at h3
      simp [h3, h4]
    simp [templateLoad, hb, hload, isExecErr]

/-- C3 witness: each condition of the amended statement evaluated at a
concrete engine and context. -/
theorem C3_load_errors_witness :
    load engOk ctxNoConfig "base.html".toList = some .noConfig ∧
    load engOk ctxNoPatterns "base.html".toList =
      some (.wrapped ctxNoPatterns [] .noBaseOrPattern) ∧
    templateLoad engOk ctxNoPatterns "p0".toList =
      (some (.wrapped ctxNoPatterns "p0".toList .noBasePattern), "p0".toList) ∧
    load engParseFail ctxBase "base.html".toList =
      some (.wrapped ctxBase "base.html".toList (.parse "syntax".toList)) ∧
    load engExecFail ctxSub "sub.html".toList =
      some (.wrapped ctxSub "sub.html".toList (.exec "bad".toList)) ∧
    templateLoad engExecFail ctxBase "p0".toList =
      (some (.withHint (.wrapped ctxBase (filepathBase "dir/base.html".toList)
          (.exec "bad".toList))), filepathBase "dir/base.html".toList) :=
  ⟨C3_load_errors.1 engOk ctxNoConfig _ rfl rfl,
   C3_load_errors.2.1 engOk ctxNoPatterns _ rfl rfl rfl,
   C3_load_errors.2.2.1 engOk ctxNoPatterns _ rfl,
   C3_load_errors.2.2.2.1 engParseFail ctxBase _ _ rfl rfl rfl rfl,
   (C3_load_errors.2.2.2.2.1 engExecFail ctxSub _ _ rfl rfl rfl rfl rfl).1,
   C3_load_errors.2.2.2.2.2 engExecFail ctxBase _ _ [] _ rfl rfl rfl rfl rfl⟩

/-- C4: when live-reload is enabled and the synchronous re-load fails, render
notifies the live-reload error hook with that error, writes only the
reload-script fragment to the sink (no template output), and returns
normally without panicking, provided the sink accepts the write. -/
theorem C4_livereload_load_failure (js : Str) (e : TError) (be : Except Str Str)
    (sink : Str → Option GoErr) (h : sink js = none) :
    TemplateGo.render true js (some e) be none sink =
      ⟨false, [js], [e]⟩ := by
  simp [TemplateGo.render, h]

/-- C4 witness: a failing re-load with a healthy sink writes only the
fragment, notifies the hook, and does not panic. -/
theorem C4_livereload_load_failure_witness :
    TemplateGo.render true exJs (some TError.noConfig) (Except.ok []) none sinkOk =
      ⟨false, [exJs], [TError.noConfig]⟩ :=
  C4_livereload_load_failure exJs TError.noConfig (Except.ok []) sinkOk rfl

/-- C9: for a base-wrapped unit with a non-empty base pattern list, Load
resolves the lookup pattern to the file-name component of the first base
pattern — whatever pattern state the unit had before — and the trial
execution consults the engine on exactly that resolved pattern. -/
theorem C9_usePattern_resolution (eng : Engine) (ctx : TemplCtxCore)
    (up0 b : Str) (bs : List Str) (hb : ctx.baseTemplates = b :: bs) :
    (templateLoad eng ctx up0).2 = filepathBase b ∧
    (ctx.onLoad = none → ctx.hasConfig = true →
      eng.parse (ctx.baseTemplates ++ ctx.withTemplates) = none →
      (templateLoad eng ctx up0).1 =
        match eng.exec (filepathBase b) with
        | some m => some (.withHint (.wrapped ctx (filepathBase b) (.exec m)))
        | none => none) := by
  constructor
  · simp only [templateLoad, hb]
    cases load eng ctx (filepathBase b) with
    | none => rfl
    | some e => by_cases he : isExecErr e <;> simp [he]
  · intro h1 h2 h3
    cases hx : eng.exec (filepathBase b) with
    | none =>
      have hload : load eng ctx (filepathBase b) = none := by
        rw [hb] at h3
        simp only [load, h1, h2, hb]
        simp [List.cons_append] at h3
        simp [h3, hx]
      simp [templateLoad, hb, hload]
    | some m =>
      have hload : load eng ctx (filepathBase b) =
          some (.wrapped ctx (filepathBase b) (.exec m)) := by
        rw [hb] at h3
        simp only [load, h1, h2, hb]
        simp [List.cons_append] at h3
        simp [h3, hx]
      simp [templateLoad, hb, hload, isExecErr]

/-- C9 witness: Load on a context whose first base pattern is nested resolves
the lookup pattern to its file-name component. -/
theorem C9_usePattern_resolution_witness :
    (templateLoad engOk ctxBase "p0".toList).2 = "base.html".toList ∧
    (templateLoad engOk ctxBase "p0".toList).1 = none := by
  have h := C9_usePattern_resolution engOk ctxBase "p0".toList
      "dir/base.html".toList [] rfl
  refine ⟨?_, ?_⟩
  · rw [h.1]; decide
  · rw [h.2 rfl rfl rfl]; decide

/-- The base/data pair passed to the engine on every base-wrapped render
(BaseData, src/template.go lines 43-46). -/
structure BaseDataV (T U : Type) where
  B : T
  D : U

/-- Modelled from the spec: the context store as a reference to a shared
mutable base-data cell.  The TemplateContext implementation
(templateContextCore, SetBaseData, Copy) is not among the provided sources;
per the spec, derivation shares the base-data cell by reference and
setBaseData mutates the shared cell in place, visible to every unit built
from the original or any derivative.  Cells live in a heap indexed by cell
identity; a store is its cell reference. -/
structure ContextStore where
  cellId : Nat

/-- Modelled from the spec: the heap of base-data cells. -/
def Heap (T : Type) := Nat → T

/-- Modelled from the spec: setBaseData mutates the shared cell in place. -/
def setBaseData {T : Type} (s : ContextStore) (v : T) (h : Heap T) : Heap T :=
  fun i => if i = s.cellId then v else h i

/-- Modelled from the spec: Copy yields a derived store sharing the base-data
cell by reference. -/
def copyStore (s : ContextStore) : ContextStore := ⟨s.cellId⟩

/-- Template.Render (src/template.go lines 119-122): the value handed to the
engine is built at call time from the current contents of the base-data cell
and the per-call data; no re-registration or re-load is involved. -/
def renderData {T U : Type} (s : ContextStore) (h : Heap T) (data : U) :
    BaseDataV T U :=
  ⟨h s.cellId, data⟩

/-- A base-wrapped render through an engine execution function. -/
def renderUnit {T U : Type} (exec : BaseDataV T U → Str) (s : ContextStore)
    (h : Heap T) (data : U) : Str :=
  exec (renderData s h data)

/-- The set-then-render loop of the claim: for each value in turn, mutate the
cell through the setter store and render through the renderer store, the heap
persisting across iterations. -/
def renderLoop {T U : Type} (exec : BaseDataV T U → Str)
    (setter renderer : ContextStore) (data : U) :
    Heap T → List T → List Str
  | _, [] => []
  | h, v :: rest =>
    let h2 := setBaseData setter v h
    renderUnit exec renderer h2 data :: renderLoop exec setter renderer data h2 rest

/-- C5: for any derived store sharing the base-data cell, every render issued
after a setBaseData reflects exactly the value just set, with no
re-registration and no re-load: the whole set-then-render loop yields, at
each iteration, the output of the engine on exactly that iteration's value. -/
theorem C5_basedata_propagation {T U : Type} (exec : BaseDataV T U → Str)
    (setter renderer : ContextStore) (hshare : setter.cellId = renderer.cellId)
    (data : U) :
    (∀ (h : Heap T) (v : T),
        renderUnit exec renderer (setBaseData setter v h) data = exec ⟨v, data⟩) ∧
    (∀ (h : Heap T) (vs : List T),
        renderLoop exec setter renderer data h vs =
          vs.map (fun v => exec ⟨v, data⟩)) := by
  have hstep : ∀ (h : Heap T) (v : T),
      renderUnit exec renderer (setBaseData setter v h) data = exec ⟨v, data⟩ := by
    intro h v
    simp [renderUnit, renderData, setBaseData, hshare]
  refine ⟨hstep, ?_⟩
  intro h vs
  induction vs generalizing h with
  | nil => rfl
  | cons v rest ih => simp [renderLoop, hstep, ih]

/-- Engine output used in the C5 witness: renders the base-data Title digit. -/
def digitExec : BaseDataV Nat Nat → Str :=
  fun bd => [Char.ofNat (48 + bd.B)]

/-- C5 witness: with base data set to 0..4 in sequence through a derived
store, each render after each mutation yields exactly that iteration's
digit. -/
theorem C5_basedata_propagation_witness :
    renderLoop digitExec (copyStore ⟨0⟩) ⟨0⟩ 0 (fun _ => 9) [0, 1, 2, 3, 4] =
      ["0".toList, "1".toList, "2".toList, "3".toList, "4".toList] := by
  have h := (C5_basedata_propagation digitExec (copyStore ⟨0⟩) ⟨0⟩ rfl 0).2
      (fun _ => 9) [0, 1, 2, 3, 4]
  rw [h]
  decide

/-- State of the livereload package (src/template.go lines 278-283):
the mutex-protected started flag and the registered subscriber channels. -/
structure LiveReloadState where
  liveServerStarted : Bool
  clientsRegister : List Nat
deriving DecidableEq, Repr

/-- Result of a RunLiveReload call. -/
inductive LRResult where
  | handler
  | alreadyRunning
  | setupFailed
deriving DecidableEq, Repr

/-- RunLiveReload (src/template.go lines 315-324): under the mutex, a second
call while started returns the already-running error at once; otherwise the
flag is set and the remaining setup runs, whose possible failure is
abstracted by setupFails. -/
def runLiveReload (setupFails : Bool) (s : LiveReloadState) :
    LRResult × LiveReloadState :=
  if s.liveServerStarted = true then (.alreadyRunning, s)
  else
    let s1 : LiveReloadState := { s with liveServerStarted := true }
    if setupFails = true then (.setupFailed, s1) else (.handler, s1)

/-- C6: after any RunLiveReload call the started flag is set, the call leaves
the subscriber set untouched, and a second call returns the already-running
error with the whole state, active subscriptions included, unchanged. -/
theorem C6_already_running (f g : Bool) (s : LiveReloadState) :
    (runLiveReload f s).2.liveServerStarted = true ∧
    (runLiveReload f s).2.clientsRegister = s.clientsRegister ∧
    runLiveReload g (runLiveReload f s).2 =
      (.alreadyRunning, (runLiveReload f s).2) := by
  cases s with
  | mk st cl => cases st <;> cases f <;> simp [runLiveReload]

/-- The debounce window of runWatcher (src/template.go line 458),
in milliseconds. -/
def batchDelay : Nat := 100

/-- The debouncing core of runWatcher (src/template.go lines 495-505) run
over a time-stamped event list.  The accumulator is the pending single-shot
timer: its firing deadline and the event captured by its callback.  On each
incoming event, a pending timer that has already reached its deadline has
fired (emitting its callback); a still-pending timer is stopped; either way a
fresh timer is armed for the full window holding the new event.  After the
stream ends the remaining timer fires.  Each emitted element stands for one
handleChange callback immediately followed by one broadcast. -/
def runWatcherEvents {E : Type} : Option (Nat × E) → List (Nat × E) → List E
  | some (_, pe), [] => [pe]
  | none, [] => []
  | some (d, pe), (t, e) :: rest =>
    if d ≤ t then pe :: runWatcherEvents (some (t + batchDelay, e)) rest
    else runWatcherEvents (some (t + batchDelay, e)) rest
  | none, (t, e) :: rest => runWatcherEvents (some (t + batchDelay, e)) rest

lemma getD_getLast?_cons {α : Type} (a x : α) (l : List α) :
    (a :: l).getLast?.getD x = l.getLast?.getD a := by
  cases l with
  | nil => rfl
  | cons b m =>
    rw [List.getLast?_cons_cons]
    cases h : (b :: m).getLast? with
    | none => exact absurd (List.getLast?_eq_none_iff.mp h) (by simp)
    | some v => rfl

lemma runWatcherEvents_chain {E : Type} :
    ∀ (evs : List (Nat × E)) (t : Nat) (e : E),
      List.Chain (fun a b => b.1 < a.1 + batchDelay) (t, e) evs →
      runWatcherEvents (some (t + batchDelay, e)) evs =
        [(evs.getLast?.getD (t, e)).2] := by
  intro evs
  induction evs with
  | nil => intro t e _; rfl
  | cons te rest ih =>
    intro t e hch
    obtain ⟨t2, e2⟩ := te
    rw [List.chain_cons] at hch
    have hlt : ¬ (t + batchDelay ≤ t2) := by
      have := hch.1
      simp only at this
      omega
    simp only [runWatcherEvents, hlt, if_false]
    rw [ih t2 e2 hch.2, getD_getLast?_cons]

/-- C7: a burst of N events in which every event arrives strictly inside the
window armed by its predecessor produces exactly one fired callback, hence
exactly one broadcast, and that callback carries only the most recent event
of the burst. -/
theorem C7_debounce {E : Type} (t0 : Nat) (e0 : E) (evs : List (Nat × E))
    (hburst : List.Chain (fun a b => b.1 < a.1 + batchDelay) (t0, e0) evs) :
    runWatcherEvents none ((t0, e0) :: evs) =
      [(evs.getLast?.getD (t0, e0)).2] ∧
    (runWatcherEvents none ((t0, e0) :: evs)).length = 1 := by
  have h : runWatcherEvents none ((t0, e0) :: evs) =
      runWatcherEvents (some (t0 + batchDelay, e0)) evs := rfl
  rw [h, runWatcherEvents_chain evs t0 e0 hburst]
  exact ⟨rfl, rfl⟩

/-- C7 witness: three events at 0, 50 and 120 milliseconds, each inside the
window armed by the previous one, collapse into a single fired callback
carrying the last event. -/
theorem C7_debounce_witness :
    runWatcherEvents none [(0, 1), (50, 2), (120, (3 : Nat))] = [3] ∧
    (runWatcherEvents none [(0, 1), (50, 2), (120, (3 : Nat))]).length = 1 := by
  have h := C7_debounce 0 1 [(50, 2), (120, 3)]
      (List.Chain.cons (by decide) (List.Chain.cons (by decide) List.Chain.nil))
  exact ⟨by rw [h.1]; decide, h.2⟩

/-- broadcast (src/template.go lines 286-296): under the subscriber-set
mutex, one non-blocking send per subscriber.  A subscriber channel has
capacity 1 and is modelled by its pending contents: an empty channel receives
the message, a full one is skipped and keeps its pending notification. -/
def broadcast (msg : Str) (subs : List (Option Str)) : List (Option Str) :=
  subs.map (fun ch =>
    match ch with
    | none => some msg
    | some pending => some pending)

/-- C8: broadcast touches every subscriber exactly once and independently of
all others: the subscriber count is preserved, each resulting channel depends
only on that subscriber's own prior state, an empty channel receives the
message no matter how many other subscribers never read theirs, and a full
channel keeps its single pending notification, the duplicate being dropped.
As a total function of the prior state it never blocks. -/
theorem C8_broadcast (msg : Str) (subs : List (Option Str)) :
    (broadcast msg subs).length = subs.length ∧
    (∀ (i : Nat), (broadcast msg subs)[i]? =
      (subs[i]?).map (fun ch =>
        match ch with
        | none => some msg
        | some pending => some pending)) ∧
    (∀ (i : Nat), subs[i]? = some none →
      (broadcast msg subs)[i]? = some (some msg)) ∧
    (∀ (i : Nat) (pending : Str), subs[i]? = some (some pending) →
      (broadcast msg subs)[i]? = some (some pending)) := by
  refine ⟨List.length_map _ _, ?_, ?_, ?_⟩
  · intro i
    simp [broadcast, List.getElem?_map]
  · intro i h
    simp [broadcast, List.getElem?_map, h]
  · intro i pending h
    simp [broadcast, List.getElem?_map, h]

/-- C8 witness: with one never-reading subscriber already holding a pending
notification and one empty subscriber, broadcast delivers to the empty one
and drops the duplicate for the full one. -/
theorem C8_broadcast_witness :
    (broadcast "reload".toList [none, some "old".toList])[0]? =
      some (some "reload".toList) ∧
    (broadcast "reload".toList [none, some "old".toList])[1]? =
      some (some "old".toList) ∧
    (broadcast "reload".toList [none, some "old".toList]).length = 2 :=
  ⟨(C8_broadcast "reload".toList [none, some "old".toList]).2.2.1 0 rfl,
   (C8_broadcast "reload".toList [none, some "old".toList]).2.2.2 1 "old".toList rfl,
   (C8_broadcast "reload".toList [none, some "old".toList]).1⟩

/-- The source-file suffix ignored by the watcher (src/template.go
line 451). -/
def goType : Str := ['.', 'g', 'o']

/-- The source-file filter of the watcher event loop (src/template.go lines
473-476): after checking only that the name is non-empty, the loop evaluates
the slice name[len-3 : len] and compares it to the suffix.  In Go a slice
whose start index is negative panics, modelled as none; some b means the step
completes, with b telling whether the event is ignored. -/
def goFileGuard (name : Str) : Option Bool :=
  if name.length > 0 then
    if goType.length ≤ name.length then
      some (name.drop (name.length - goType.length) == goType)
    else none
  else some false

/-- C10: the watcher event-loop source-file filter panics exactly on event
names of length 1 or 2 — the slice start index is negative there — and
completes on the empty name and on every name of at least 3 bytes, so the
event-handling step is total only under that precondition. -/
theorem C10_event_name_slice (name : Str) :
    ((name.length = 1 ∨ name.length = 2) → goFileGuard name = none) ∧
    ((name.length = 0 ∨ 3 ≤ name.length) → (goFileGuard name).isSome = true) := by
  constructor
  · rintro (h | h) <;> simp [goFileGuard, goType, h]
  · rintro (h | h)
    · simp [goFileGuard, h]
    · have h1 : name.length > 0 := by omega
      simp [goFileGuard, goType, h1, h]

/-- C10 witness: a one-byte event name panics the filter; a three-byte name
completes it. -/
theorem C10_event_name_slice_witness :
    goFileGuard ['a'] = none ∧ (goFileGuard ['x', 'y', 'z']).isSome = true :=
  ⟨(C10_event_name_slice ['a']).1 (Or.inl rfl),
   (C10_event_name_slice ['x', 'y', 'z']).2 (Or.inr (by decide))⟩

end Loadr
